/-
Verification of the LoopBreaker protocol engine (loopbreaker_protocol.py).

Shallow embedding conventions:
  * Python floats are modelled as exact rationals (ℚ); metric thresholds in the
    source are decimal literals, rendered here as the same decimal literals over ℚ.
  * `datetime` instants are modelled as rational numbers of seconds; a
    `timedelta` is a rational number of seconds (`total_seconds()`);
    `timedelta(minutes=m)` is `m * 60` seconds.
  * Every engine entry point that may read the wall clock in the source
    (`datetime.now()`) takes an explicit `now : ℚ` argument.
  * Python `Dict[str, Any]` result records are association lists over a small
    value universe `JVal`; dictionary assignment `d[k] = v` is `dictSet`
    (replace in place if the key exists, append otherwise), matching Python's
    insertion-order semantics.
  * Mutation of an `Intervention` object held in the engine's catalog is
    modelled by replacing the list entry at its index; object identity is the
    pair (category, index into the category's list).
  * A Python function that may raise is modelled as returning `Except String`.
-/
import Mathlib

/- Core marks rational arithmetic irreducible; re-allow unfolding so that
concrete engine runs can be settled by `decide`. -/
attribute [local semireducible] Rat.ofScientific Rat.sub Rat.add Rat.mul Rat.inv

/-- The six collapse patterns (`class CollapsePattern(Enum)`). -/
inductive CollapsePattern where
  | symbolic_flooding
  | identity_fragmentation
  | recursive_spiral
  | meaning_collapse
  | temporal_disconnection
  | containment_breach
deriving DecidableEq

/-- The `.value` string of each `CollapsePattern` enum member. -/
def CollapsePattern.value : CollapsePattern → String
  | .symbolic_flooding => "symbolic_flooding"
  | .identity_fragmentation => "identity_fragmentation"
  | .recursive_spiral => "recursive_spiral"
  | .meaning_collapse => "meaning_collapse"
  | .temporal_disconnection => "temporal_disconnection"
  | .containment_breach => "containment_breach"

/-- The five intervention categories (`class InterventionType(Enum)`). -/
inductive InterventionType where
  | grounding
  | identity_anchor
  | containment
  | redirect
  | emergency_stop
deriving DecidableEq

/-- The `.value` string of each `InterventionType` enum member. -/
def InterventionType.value : InterventionType → String
  | .grounding => "grounding"
  | .identity_anchor => "identity_anchor"
  | .containment => "containment"
  | .redirect => "redirect"
  | .emergency_stop => "emergency_stop"

/-- `@dataclass CognitiveState`: one metric snapshot.  `timestamp` is seconds;
`session_duration` is elapsed seconds since the first snapshot of the session. -/
structure CognitiveState where
  timestamp : ℚ
  recursion_depth : Int
  symbolic_density : ℚ
  coherence_score : ℚ
  temporal_anchor : ℚ
  emotional_intensity : ℚ
  meaning_saturation : ℚ
  session_duration : ℚ
deriving DecidableEq

/-- The keyword arguments accepted by `update_state` / `process_cycle`, with
the dataclass defaults of `CognitiveState` (recursion_depth 0, densities and
intensities 0.0, coherence_score and temporal_anchor 1.0). -/
structure StateUpdate where
  recursion_depth : Int := 0
  symbolic_density : ℚ := 0
  coherence_score : ℚ := 1
  temporal_anchor : ℚ := 1
  emotional_intensity : ℚ := 0
  meaning_saturation : ℚ := 0
deriving DecidableEq

/-- Value universe for the `Dict[str, Any]` result records produced by
intervention action functions: the source only stores strings, numbers,
booleans and lists of strings in them. -/
inductive JVal where
  | s (v : String)
  | n (v : ℚ)
  | b (v : Bool)
  | arr (v : List String)
deriving DecidableEq

/-- A Python `Dict[str, Any]` as an insertion-ordered association list. -/
abbrev PyDict := List (String × JVal)

/-- Python dictionary assignment `d[k] = v`: overwrite in place when the key
is present, append otherwise. -/
def dictSet (d : PyDict) (k : String) (v : JVal) : PyDict :=
  if d.any (fun p => p.1 == k) then
    d.map (fun p => if p.1 == k then (k, v) else p)
  else
    d ++ [(k, v)]

/-- Python dictionary lookup `d[k]` (the value stored under `k`, if any). -/
def dictGet (d : PyDict) (k : String) : Option JVal :=
  (d.find? (fun p => p.1 == k)).map (fun p => p.2)

/-- `detect_symbolic_flooding` (closure registered by `_initialize_detectors`). -/
def detect_symbolic_flooding (state : CognitiveState) : Bool :=
  decide (state.symbolic_density > 0.8) &&
    decide (state.recursion_depth > 5) &&
    decide (state.meaning_saturation > 0.7)

/-- Python `all(c1 > c2 for c1, c2 in zip(lst[:-1], lst[1:]))`:
each adjacent pair of the list is strictly decreasing. -/
def pairwiseGt : List ℚ → Bool
  | c1 :: c2 :: rest => decide (c1 > c2) && pairwiseGt (c2 :: rest)
  | _ => true

/-- `detect_identity_fragmentation`.  The closure reads `self.state_history`,
passed here explicitly as `history`; inside `process_cycle` the current
snapshot has already been appended, so `history` ends with `state`.
`history[-3:]` is the last three entries, i.e. `drop (length - 3)`. -/
def detect_identity_fragmentation (history : List CognitiveState)
    (state : CognitiveState) : Bool :=
  if history.length < 3 then false
  else
    decide (state.coherence_score < 0.4) &&
      pairwiseGt ((history.drop (history.length - 3)).map
        (fun s => s.coherence_score))

/-- `detect_recursive_spiral`: `session_duration.total_seconds() > 1800`. -/
def detect_recursive_spiral (state : CognitiveState) : Bool :=
  decide (state.recursion_depth > 10) &&
    decide (state.emotional_intensity > 0.8) &&
    decide (state.session_duration > 1800)

/-- `detect_meaning_collapse`. -/
def detect_meaning_collapse (state : CognitiveState) : Bool :=
  decide (state.meaning_saturation > 0.9) &&
    decide (state.coherence_score < 0.3) &&
    decide (state.symbolic_density > 0.9)

/-- `detect_temporal_disconnection`: `session_duration.total_seconds() > 3600`. -/
def detect_temporal_disconnection (state : CognitiveState) : Bool :=
  decide (state.temporal_anchor < 0.2) &&
    decide (state.session_duration > 3600)

/-- `detect_containment_breach`: the only OR-combined detector. -/
def detect_containment_breach (state : CognitiveState) : Bool :=
  decide (state.recursion_depth > 15) ||
    decide (state.meaning_saturation > 0.95) ||
    decide (state.coherence_score < 0.1)

/-- `@dataclass PatternDetector`.  The threshold function uniformly receives
the history (the Python closures capture `self`; only the
identity-fragmentation detector actually reads it). -/
structure PatternDetector where
  pattern_type : CollapsePattern
  threshold_function : List CognitiveState → CognitiveState → Bool
  confidence_threshold : ℚ
  description : String

/-- The fixed list built by `_initialize_detectors`, in registration order. -/
def pattern_detectors : List PatternDetector :=
  [ { pattern_type := .symbolic_flooding,
      threshold_function := fun _ s => detect_symbolic_flooding s,
      confidence_threshold := 0.8,
      description := "Overwhelming symbolic processing beyond integration capacity" },
    { pattern_type := .identity_fragmentation,
      threshold_function := fun h s => detect_identity_fragmentation h s,
      confidence_threshold := 0.7,
      description := "Progressive loss of coherent self-concept" },
    { pattern_type := .recursive_spiral,
      threshold_function := fun _ s => detect_recursive_spiral s,
      confidence_threshold := 0.9,
      description := "Runaway recursive processing without resolution" },
    { pattern_type := .meaning_collapse,
      threshold_function := fun _ s => detect_meaning_collapse s,
      confidence_threshold := 0.8,
      description := "Meaning density exceeding processing capacity" },
    { pattern_type := .temporal_disconnection,
      threshold_function := fun _ s => detect_temporal_disconnection s,
      confidence_threshold := 0.6,
      description := "Loss of present-moment anchoring" },
    { pattern_type := .containment_breach,
      threshold_function := fun _ s => detect_containment_breach s,
      confidence_threshold := 1.0,
      description := "Critical threshold breach requiring immediate intervention" } ]

/-- `@dataclass Intervention`.  The action function may raise in Python,
modelled by `Except String`.  `last_executed` is the per-intervention cooldown
timestamp (nullable, seconds). -/
structure Intervention where
  intervention_type : InterventionType
  priority : Int
  execute : CognitiveState → Except String PyDict
  description : String
  cooldown_minutes : Int
  last_executed : Option ℚ

/-- `loop_breath_protocol` action. -/
def loop_breath_protocol (_state : CognitiveState) : Except String PyDict :=
  .ok [ ("type", .s "grounding"),
        ("protocol", .s "loop_breath"),
        ("instructions", .arr
          [ "Focus on breath entering and leaving your body",
            "Count: In (1-2-3-4), Hold (1-2), Out (1-2-3-4-5-6)",
            "Feel your feet on the ground",
            "Name 5 things you can see, 4 you can touch, 3 you can hear" ]),
        ("duration_minutes", .n 5),
        ("success_metric", .s "temporal_anchor > 0.5") ]

/-- `physical_anchor_protocol` action. -/
def physical_anchor_protocol (_state : CognitiveState) : Except String PyDict :=
  .ok [ ("type", .s "grounding"),
        ("protocol", .s "physical_anchor"),
        ("instructions", .arr
          [ "Press your palms together firmly",
            "Feel the pressure and warmth",
            "Say aloud: \x27I am [your name], I am here, I am safe\x27",
            "Touch a familiar object and describe its texture" ]),
        ("duration_minutes", .n 3),
        ("success_metric", .s "coherence_score > 0.6") ]

/-- `core_identity_recall` action. -/
def core_identity_recall (_state : CognitiveState) : Except String PyDict :=
  .ok [ ("type", .s "identity_anchor"),
        ("protocol", .s "core_recall"),
        ("prompts", .arr
          [ "What is your full name?",
            "Where do you live?",
            "Who are three people who care about you?",
            "What is one thing you\x27re proud of accomplishing?",
            "What matters most to you in life?" ]),
        ("requirement", .s "Answer all prompts aloud"),
        ("success_metric", .s "coherence_score > 0.7") ]

/-- `values_compass_reset` action. -/
def values_compass_reset (_state : CognitiveState) : Except String PyDict :=
  .ok [ ("type", .s "identity_anchor"),
        ("protocol", .s "values_compass"),
        ("instructions", .arr
          [ "Name your top 3 personal values",
            "How do these values show up in your daily life?",
            "What would your best friend say about who you are?",
            "Complete: \x27Despite all complexity, I remain fundamentally...\x27" ]),
        ("duration_minutes", .n 10),
        ("success_metric", .s "coherence_score > 0.8") ]

/-- `symbolic_quarantine` action. -/
def symbolic_quarantine (_state : CognitiveState) : Except String PyDict :=
  .ok [ ("type", .s "containment"),
        ("protocol", .s "symbolic_quarantine"),
        ("actions", .arr
          [ "Suspend all symbolic processing",
            "Focus only on literal, concrete reality",
            "No metaphors, analogies, or deeper meanings",
            "Engage with simple, factual tasks for 30 minutes" ]),
        ("restrictions", .arr
          [ "No journaling", "No deep conversations", "No abstract thinking" ]),
        ("success_metric", .s "symbolic_density < 0.2") ]

/-- `emergency_containment` action. -/
def emergency_containment (_state : CognitiveState) : Except String PyDict :=
  .ok [ ("type", .s "containment"),
        ("protocol", .s "emergency_containment"),
        ("immediate_actions", .arr
          [ "STOP all current processing",
            "Move to a safe, familiar environment",
            "Contact designated support person",
            "Engage in predetermined stabilization routine" ]),
        ("mandatory", .b true),
        ("escalation", .s "professional_support"),
        ("success_metric", .s "coherence_score > 0.5 within 60 minutes") ]

/-- `creative_outlet_redirect` action. -/
def creative_outlet_redirect (_state : CognitiveState) : Except String PyDict :=
  .ok [ ("type", .s "redirect"),
        ("protocol", .s "creative_outlet"),
        ("options", .arr
          [ "Draw or paint current feelings",
            "Write stream-of-consciousness for 10 minutes",
            "Play music or sing",
            "Physical movement or dance" ]),
        ("purpose", .s "Channel intensity into expression"),
        ("success_metric", .s "emotional_intensity < 0.6") ]

/-- The `self.interventions` dictionary keyed by `InterventionType`; the
source dict has the four keys below (no `EMERGENCY_STOP` entry), each mapping
to its list in registration order. -/
structure InterventionCatalog where
  grounding : List Intervention
  identity_anchor : List Intervention
  containment : List Intervention
  redirect : List Intervention

/-- Dictionary lookup `self.interventions[t]`.  The source dict has no
`EMERGENCY_STOP` key (lookup there would raise `KeyError`); selection never
looks it up, and the empty list returned here is proved unreachable in the
claims about selection. -/
def InterventionCatalog.get (c : InterventionCatalog) :
    InterventionType → List Intervention
  | .grounding => c.grounding
  | .identity_anchor => c.identity_anchor
  | .containment => c.containment
  | .redirect => c.redirect
  | .emergency_stop => []

/-- The catalog built by `_initialize_interventions` (fresh per engine:
every `last_executed` starts as `None`). -/
def default_interventions : InterventionCatalog :=
  { grounding :=
      [ { intervention_type := .grounding, priority := 7,
          execute := loop_breath_protocol,
          description := "Basic breathing and sensory grounding",
          cooldown_minutes := 10, last_executed := none },
        { intervention_type := .grounding, priority := 6,
          execute := physical_anchor_protocol,
          description := "Physical contact and verbal anchoring",
          cooldown_minutes := 15, last_executed := none } ],
    identity_anchor :=
      [ { intervention_type := .identity_anchor, priority := 8,
          execute := core_identity_recall,
          description := "Fundamental identity fact recall",
          cooldown_minutes := 20, last_executed := none },
        { intervention_type := .identity_anchor, priority := 7,
          execute := values_compass_reset,
          description := "Core values and character anchoring",
          cooldown_minutes := 30, last_executed := none } ],
    containment :=
      [ { intervention_type := .containment, priority := 9,
          execute := symbolic_quarantine,
          description := "Suspend symbolic processing",
          cooldown_minutes := 60, last_executed := none },
        { intervention_type := .containment, priority := 10,
          execute := emergency_containment,
          description := "Full system containment protocol",
          cooldown_minutes := 240, last_executed := none } ],
    redirect :=
      [ { intervention_type := .redirect, priority := 5,
          execute := creative_outlet_redirect,
          description := "Channel energy into creative expression",
          cooldown_minutes := 30, last_executed := none } ] }

/-- The engine (`class LoopBreaker`).  `pattern_detectors` is the fixed
top-level list; the mutable per-session state is the history, the catalog
(via `last_executed`) and the containment flag.  `emergency_contacts` is
declared by `__init__` and never used afterwards. -/
structure LoopBreaker where
  session_id : String
  state_history : List CognitiveState
  interventions : InterventionCatalog
  active_containment : Bool
  emergency_contacts : List String

/-- `LoopBreaker.__init__`; the `uuid.uuid4()` session identifier is an
externally supplied opaque string. -/
def LoopBreaker.init (session_id : String) : LoopBreaker :=
  { session_id := session_id,
    state_history := [],
    interventions := default_interventions,
    active_containment := false,
    emergency_contacts := [] }

/-- `update_state(**kwargs)`: compute the session duration from the first
history entry, build the snapshot, append it, return it.  `now` is the
`datetime.now()` read at the start of the call. -/
def LoopBreaker.update_state (lb : LoopBreaker) (now : ℚ) (u : StateUpdate) :
    LoopBreaker × CognitiveState :=
  let session_duration : ℚ :=
    match lb.state_history with
    | [] => 0
    | first :: _ => now - first.timestamp
  let new_state : CognitiveState :=
    { timestamp := now,
      recursion_depth := u.recursion_depth,
      symbolic_density := u.symbolic_density,
      coherence_score := u.coherence_score,
      temporal_anchor := u.temporal_anchor,
      emotional_intensity := u.emotional_intensity,
      meaning_saturation := u.meaning_saturation,
      session_duration := session_duration }
  ({ lb with state_history := lb.state_history ++ [new_state] }, new_state)

/-- `detect_patterns(state)`: run every registered detector in order,
collecting `(pattern_type, confidence_threshold, description)` for the ones
that fire.  The Python `try/except` around each detector is dead for the six
registered total detectors, so the embedding has no failure branch. -/
def detect_patterns (history : List CognitiveState) (state : CognitiveState) :
    List (CollapsePattern × ℚ × String) :=
  pattern_detectors.filterMap (fun d =>
    if d.threshold_function history state then
      some (d.pattern_type, d.confidence_threshold, d.description)
    else none)

/-- The cooldown test performed inside `select_intervention`:
`last_executed is None or now - last_executed > timedelta(minutes=cooldown)`. -/
def eligible (now : ℚ) (i : Intervention) : Bool :=
  match i.last_executed with
  | none => true
  | some t => decide (now - t > (i.cooldown_minutes : ℚ) * 60)

/-- The `available_interventions` accumulation loop of `select_intervention`,
keeping each eligible intervention together with its index `k` in the
category's list (the index models Python object identity). -/
def availableIdx (now : ℚ) : List Intervention → Nat → List (Nat × Intervention)
  | [], _ => []
  | i :: is, k =>
    if eligible now i then (k, i) :: availableIdx now is (k + 1)
    else availableIdx now is (k + 1)

/-- `max(available_interventions, key=lambda x: x.priority)` over the indexed
available list; Python `max` keeps the first element among equal keys. -/
def select_idx (items : List Intervention) (now : ℚ) : Option Nat :=
  match availableIdx now items 0 with
  | [] => none
  | x :: xs =>
    some (xs.foldl (fun best p =>
      if p.2.priority > best.2.priority then p else best) x).1

/-- The fixed `pattern_to_intervention` mapping of `select_intervention`.
The source builds it as a dict covering all six patterns, so the guarded
`if not intervention_type: return None` branch is dead. -/
def pattern_to_intervention : CollapsePattern → InterventionType
  | .symbolic_flooding => .containment
  | .identity_fragmentation => .identity_anchor
  | .recursive_spiral => .grounding
  | .meaning_collapse => .containment
  | .temporal_disconnection => .grounding
  | .containment_breach => .containment

/-- Python `list.sort(key=..., reverse=True)` is a stable descending sort;
insertion keeping the incoming element ahead of later elements with an equal
confidence realises exactly that (stable sorts by a key are unique). -/
def insertByConfDesc (p : CollapsePattern × ℚ × String) :
    List (CollapsePattern × ℚ × String) → List (CollapsePattern × ℚ × String)
  | [] => [p]
  | q :: qs =>
    if p.2.1 ≥ q.2.1 then p :: q :: qs else q :: insertByConfDesc p qs

/-- `patterns.sort(key=lambda x: x[1], reverse=True)`. -/
def sortByConfDesc :
    List (CollapsePattern × ℚ × String) → List (CollapsePattern × ℚ × String)
  | [] => []
  | p :: ps => insertByConfDesc p (sortByConfDesc ps)

/-- `select_intervention(patterns)`: empty list short-circuits to `None`;
otherwise sort descending by confidence, take the primary pattern, map it to
a category, filter that category's list by cooldown and return the
highest-priority available intervention (identified by category and index). -/
def LoopBreaker.select_intervention (lb : LoopBreaker)
    (patterns : List (CollapsePattern × ℚ × String)) (now : ℚ) :
    Option (InterventionType × Nat) :=
  match sortByConfDesc patterns with
  | [] => none
  | primary :: _ =>
    let intervention_type := pattern_to_intervention primary.1
    (select_idx (lb.interventions.get intervention_type) now).map
      (fun j => (intervention_type, j))

/-- `execute_intervention(intervention, state)`: stamp `last_executed := now`
first (unconditionally), then run the action; on success augment the returned
record with `intervention_id` (Python `id(intervention)`, modelled by the
intervention's description, which is unique per catalog entry),
`executed_at` (the timestamp just stamped) and `session_id`; on failure
return the degraded error record instead of propagating. -/
def execute_intervention (session_id : String) (intervention : Intervention)
    (now : ℚ) (state : CognitiveState) : Intervention × PyDict :=
  let stamped := { intervention with last_executed := some now }
  match intervention.execute state with
  | .ok result =>
    (stamped,
      dictSet (dictSet (dictSet result
        "intervention_id" (.s intervention.description))
        "executed_at" (.n now))
        "session_id" (.s session_id))
  | .error e =>
    (stamped,
      [ ("error", .s ("Intervention execution failed: " ++ e)),
        ("intervention_type", .s intervention.intervention_type.value),
        ("fallback", .s "Initiate manual grounding protocol") ])

/-- Write back the mutated intervention object at its catalog position. -/
def catalogModify (c : InterventionCatalog) (ty : InterventionType) (idx : Nat)
    (newI : Intervention) : InterventionCatalog :=
  match ty with
  | .grounding => { c with grounding := c.grounding.set idx newI }
  | .identity_anchor => { c with identity_anchor := c.identity_anchor.set idx newI }
  | .containment => { c with containment := c.containment.set idx newI }
  | .redirect => { c with redirect := c.redirect.set idx newI }
  | .emergency_stop => c

/-- One entry of the `patterns_detected` list of a decision record
(`{"pattern": ..., "confidence": ..., "description": ...}`). -/
structure DetectedEntry where
  pattern : String
  confidence : ℚ
  description : String
deriving DecidableEq

/-- The record returned by `process_cycle`, with the nested `"state"` dict
flattened into `state_` fields. -/
structure DecisionRecord where
  timestamp : ℚ
  session_id : String
  state_recursion_depth : Int
  state_coherence_score : ℚ
  state_symbolic_density : ℚ
  state_temporal_anchor : ℚ
  state_emotional_intensity : ℚ
  state_meaning_saturation : ℚ
  state_session_duration_minutes : ℚ
  patterns_detected : List DetectedEntry
  intervention : Option PyDict
deriving DecidableEq

/-- `process_cycle(**state_updates)`: intake, detect, select, optionally
invoke, record.  All `datetime.now()` reads within the cycle are the single
ambient instant `now`. -/
def LoopBreaker.process_cycle (lb : LoopBreaker) (now : ℚ) (u : StateUpdate) :
    LoopBreaker × DecisionRecord :=
  let p := lb.update_state now u
  let lb1 := p.1
  let current_state := p.2
  let detected := detect_patterns lb1.state_history current_state
  let base : DecisionRecord :=
    { timestamp := current_state.timestamp,
      session_id := lb1.session_id,
      state_recursion_depth := current_state.recursion_depth,
      state_coherence_score := current_state.coherence_score,
      state_symbolic_density := current_state.symbolic_density,
      state_temporal_anchor := current_state.temporal_anchor,
      state_emotional_intensity := current_state.emotional_intensity,
      state_meaning_saturation := current_state.meaning_saturation,
      state_session_duration_minutes := current_state.session_duration / 60,
      patterns_detected := detected.map (fun d =>
        { pattern := d.1.value, confidence := d.2.1, description := d.2.2 }),
      intervention := none }
  if detected.isEmpty then (lb1, base)
  else
    match lb1.select_intervention detected now with
    | none => (lb1, base)
    | some (ty, idx) =>
      match (lb1.interventions.get ty).get? idx with
      | none => (lb1, base)
      | some intervention =>
        let er := execute_intervention lb1.session_id intervention now current_state
        let lb2 : LoopBreaker :=
          { lb1 with
            interventions := catalogModify lb1.interventions ty idx er.1,
            active_containment :=
              if intervention.intervention_type == InterventionType.containment
              then true else lb1.active_containment }
        (lb2, { base with intervention := some er.2 })

/-- The intervention object fetched and invoked by `process_cycle` on this
call, if any (recomputes the cycle's selection; used to state the claims
about the containment flag). -/
def LoopBreaker.cycle_executed (lb : LoopBreaker) (now : ℚ) (u : StateUpdate) :
    Option Intervention :=
  let p := lb.update_state now u
  let detected := detect_patterns p.1.state_history p.2
  if detected.isEmpty then none
  else
    match p.1.select_intervention detected now with
    | none => none
    | some (ty, idx) => (p.1.interventions.get ty).get? idx

/-- Nearest integer with ties to even, on exact rationals (models Python
`round`'s round-half-to-even; the source applies it to a float average). -/
def roundHalfEven (q : ℚ) : Int :=
  let f := Rat.floor q
  let frac := q - (f : ℚ)
  if frac < 1/2 then f
  else if frac > 1/2 then f + 1
  else if f % 2 = 0 then f else f + 1

/-- Python `round(x, 2)` on exact rationals. -/
def round2 (q : ℚ) : ℚ :=
  (roundHalfEven (q * 100) : ℚ) / 100

/-- The record returned by `get_session_summary` on a non-empty history. -/
structure SessionSummary where
  session_id : String
  duration_minutes : ℚ
  total_states_recorded : Nat
  interventions_executed : Nat
  average_coherence : ℚ
  maximum_recursion_depth : Int
  containment_activated : Bool
  recommendations : List String
deriving DecidableEq

/-- All catalog entries in dictionary iteration order (insertion order of
`self.interventions`: grounding, identity_anchor, containment, redirect). -/
def InterventionCatalog.allEntries (c : InterventionCatalog) : List Intervention :=
  c.grounding ++ c.identity_anchor ++ c.containment ++ c.redirect

/-- `sum(s.coherence_score for s in history) / len(history)`. -/
def averageCoherence (history : List CognitiveState) : ℚ :=
  (history.map (fun s => s.coherence_score)).sum / history.length

/-- `max(s.recursion_depth for s in history)` (history known non-empty at
both call sites; the `[]` branch stands for the empty-generator `ValueError`
case that cannot be reached). -/
def maxRecursion (history : List CognitiveState) : Int :=
  match history.map (fun s => s.recursion_depth) with
  | [] => 0
  | d :: ds => ds.foldl max d

/-- `_generate_recommendations()`: threshold rules appended in source order. -/
def LoopBreaker.generate_recommendations (lb : LoopBreaker) : List String :=
  match lb.state_history with
  | [] => ["Continue monitoring and building session data"]
  | _ =>
    let avg_coherence := averageCoherence lb.state_history
    let max_recursion := maxRecursion lb.state_history
    let session_duration :=
      (lb.state_history.getLast?.elim 0 (fun s => s.session_duration)) / 60
    (if avg_coherence < 0.6 then
      ["Focus on identity anchoring exercises daily"] else []) ++
    (if max_recursion > 8 then
      ["Implement recursion depth limits in future sessions"] else []) ++
    (if lb.active_containment then
      ["Extended integration period recommended before next deep session"] else []) ++
    (if session_duration > 90 then
      ["Consider shorter session durations with more integration breaks"] else [])

/-- `get_session_summary()`: `none` models the `{"error": "No session data
available"}` sentinel.  The method can observe the ambient clock `now` like
every entry point but never reads it, and returns the engine unchanged (it
mutates nothing). -/
def LoopBreaker.get_session_summary (lb : LoopBreaker) (_now : ℚ) :
    LoopBreaker × Option SessionSummary :=
  match lb.state_history with
  | [] => (lb, none)
  | _ =>
    let total_interventions :=
      lb.interventions.allEntries.countP (fun i => i.last_executed.isSome)
    (lb, some
      { session_id := lb.session_id,
        duration_minutes :=
          (lb.state_history.getLast?.elim 0 (fun s => s.session_duration)) / 60,
        total_states_recorded := lb.state_history.length,
        interventions_executed := total_interventions,
        average_coherence := round2 (averageCoherence lb.state_history),
        maximum_recursion_depth := maxRecursion lb.state_history,
        containment_activated := lb.active_containment,
        recommendations := lb.generate_recommendations })

/-- The first element of a list attaining the maximum value of `key`
(the unique stable choice: earlier elements win ties). -/
def firstArgmaxKey {α : Type} {β : Type} [LinearOrder β] (key : α → β) :
    List α → Option α
  | [] => none
  | x :: xs =>
    match firstArgmaxKey key xs with
    | none => some x
    | some m => some (if key m > key x then m else x)

/-- Specification-side model of selection, written from the spec's words:
take the first-registered pattern attaining the maximal confidence (the head
of a stable descending sort), map it through the fixed category table, and
return the first-registered cooldown-eligible intervention of that category
attaining the maximal priority. -/
def selectSpec (lb : LoopBreaker)
    (patterns : List (CollapsePattern × ℚ × String)) (now : ℚ) :
    Option (InterventionType × Nat) :=
  match firstArgmaxKey (fun p : CollapsePattern × ℚ × String => p.2.1) patterns with
  | none => none
  | some primary =>
    let ty : InterventionType :=
      match primary.1 with
      | .symbolic_flooding => .containment
      | .identity_fragmentation => .identity_anchor
      | .recursive_spiral => .grounding
      | .meaning_collapse => .containment
      | .temporal_disconnection => .grounding
      | .containment_breach => .containment
    match firstArgmaxKey (fun p : Nat × Intervention => p.2.priority)
        (availableIdx now (lb.interventions.get ty) 0) with
    | none => none
    | some chosen => some (ty, chosen.1)

/-- Engine state after `process_cycle` wrote the stamped intervention at
`(ty, idx)` back into the catalog (the state reached right after invoking
that intervention, before any further cycle). -/
def afterInvocation (lb : LoopBreaker) (ty : InterventionType) (idx : Nat)
    (i : Intervention) (now : ℚ) (st : CognitiveState) : LoopBreaker :=
  { lb with interventions := (catalogModify lb.interventions ty idx
      (execute_intervention lb.session_id i now st).1) }

/-- A snapshot whose only non-neutral metric is the coherence score (used to
exercise the identity-fragmentation detector). -/
def coherenceState (c : ℚ) : CognitiveState :=
  { timestamp := 0, recursion_depth := 0, symbolic_density := 0,
    coherence_score := c, temporal_anchor := 1, emotional_intensity := 0,
    meaning_saturation := 0, session_duration := 0 }

/-- Scenario A, cycle 1 metrics (the driver's "normal state"). -/
def scenarioA_u1 : StateUpdate :=
  { recursion_depth := 2, symbolic_density := 0.3, coherence_score := 0.9,
    temporal_anchor := 0.8, emotional_intensity := 0.2, meaning_saturation := 0.2 }

/-- Scenario A, cycle 2 metrics ("increasing intensity"). -/
def scenarioA_u2 : StateUpdate :=
  { recursion_depth := 6, symbolic_density := 0.7, coherence_score := 0.6,
    temporal_anchor := 0.5, emotional_intensity := 0.6, meaning_saturation := 0.6 }

/-- Scenario A, cycle 3 metrics ("critical state"). -/
def scenarioA_u3 : StateUpdate :=
  { recursion_depth := 12, symbolic_density := 0.9, coherence_score := 0.3,
    temporal_anchor := 0.2, emotional_intensity := 0.9, meaning_saturation := 0.8 }

/-- Scenario A run: three immediate sequential cycles (one minute apart, so
every session duration stays far below the 30-minute spiral threshold). -/
def scenarioA_run1 : LoopBreaker × DecisionRecord :=
  (LoopBreaker.init "scenario-a").process_cycle 0 scenarioA_u1

/-- Scenario A, state and record after cycle 2. -/
def scenarioA_run2 : LoopBreaker × DecisionRecord :=
  scenarioA_run1.1.process_cycle 60 scenarioA_u2

/-- Scenario A, state and record after cycle 3. -/
def scenarioA_run3 : LoopBreaker × DecisionRecord :=
  scenarioA_run2.1.process_cycle 120 scenarioA_u3

/-- A metrics update whose only abnormal reading is a recursion depth of 16,
which trips only the containment-breach detector. -/
def breachUpdate : StateUpdate := { recursion_depth := 16 }

/-- Double-invocation run, cycle 1: the breach update at time 0 invokes
`emergency_containment` (containment, index 1). -/
def repeatRun1 : LoopBreaker × DecisionRecord :=
  (LoopBreaker.init "repeat-run").process_cycle 0 breachUpdate

/-- Double-invocation run, cycle 2: the same update at 14401 s (one second
past the 240-minute cooldown) invokes the same intervention again. -/
def repeatRun2 : LoopBreaker × DecisionRecord :=
  repeatRun1.1.process_cycle 14401 breachUpdate

/-- The firing pattern list produced by the containment-breach detector
alone (used to drive selection directly in the cooldown claims). -/
def breachPatterns : List (CollapsePattern × ℚ × String) :=
  [(CollapsePattern.containment_breach, 1.0,
    "Critical threshold breach requiring immediate intervention")]

/-- The catalog's `emergency_containment` entry as initialised (containment
category, index 1), used to instantiate the cooldown claims concretely. -/
def emergencyContainmentEntry : Intervention :=
  { intervention_type := .containment, priority := 10,
    execute := emergency_containment,
    description := "Full system containment protocol",
    cooldown_minutes := 240, last_executed := none }

/-! ### Auxiliary lemmas about the selection machinery -/

/-- `pairwiseGt` is the strict descending-chain predicate. -/
theorem pairwiseGt_iff_chain : ∀ l : List ℚ,
    pairwiseGt l = true ↔ List.Chain' (fun a b => a > b) l
  | [] => by simp [pairwiseGt]
  | [a] => by simp [pairwiseGt]
  | a :: b :: l => by
    rw [pairwiseGt, Bool.and_eq_true, decide_eq_true_eq,
      pairwiseGt_iff_chain (b :: l), List.chain'_cons]

/-- The strict-comparison fold used for Python `max(..., key=...)` computes
the first maximum. -/
theorem foldl_pick_eq {α : Type} {β : Type} [LinearOrder β] (key : α → β) :
    ∀ (xs : List α) (x : α),
      xs.foldl (fun best p => if key p > key best then p else best) x =
        match firstArgmaxKey key xs with
        | none => x
        | some m => if key m > key x then m else x
  | [], x => by simp [firstArgmaxKey]
  | y :: ys, x => by
    rw [List.foldl_cons, foldl_pick_eq key ys]
    cases h : firstArgmaxKey key ys with
    | none => simp [firstArgmaxKey, h]
    | some m =>
      simp only [firstArgmaxKey, h]
      by_cases hyx : key y > key x
      · by_cases hmy : key m > key y
        · have hmx : key m > key x := lt_trans hyx hmy
          simp [hyx, hmy, hmx]
        · simp [hyx, hmy]
      · by_cases hmy : key m > key y
        · by_cases hmx : key m > key x
          · simp [hyx, hmy, hmx]
          · simp [hyx, hmy, hmx]
        · have hmx : ¬ key m > key x :=
            not_lt.mpr (le_trans (not_lt.mp hmy) (not_lt.mp hyx))
          simp [hyx, hmy, hmx]

/-- The fold used for Python `max` returns one of the candidates. -/
theorem foldl_pick_mem {α : Type} {β : Type} [LinearOrder β] (key : α → β) :
    ∀ (xs : List α) (x : α),
      xs.foldl (fun best p => if key p > key best then p else best) x ∈ x :: xs
  | [], x => by simp
  | y :: ys, x => by
    rw [List.foldl_cons]
    rcases List.mem_cons.mp (foldl_pick_mem key ys (if key y > key x then y else x))
      with h | h
    · rw [h]
      by_cases hyx : key y > key x
      · simp [hyx]
      · simp [hyx]
    · exact List.mem_cons_of_mem x (List.mem_cons_of_mem y h)

/-- Entries of the available list carry their true catalog index and pass the
cooldown test. -/
theorem availableIdx_mem (now : ℚ) :
    ∀ (is : List Intervention) (k j : Nat) (i : Intervention),
      (j, i) ∈ availableIdx now is k →
        k ≤ j ∧ is.get? (j - k) = some i ∧ eligible now i = true
  | [], _, _, _ => by simp [availableIdx]
  | a :: as, k, j, i => by
    intro hmem
    by_cases h : eligible now a
    · rw [availableIdx, if_pos h] at hmem
      rcases List.mem_cons.mp hmem with heq | htl
      · obtain ⟨hj, hi⟩ := Prod.mk.injEq .. ▸ heq
        subst hj; subst hi
        simp [h]
      · obtain ⟨hk, hget, helig⟩ := availableIdx_mem now as (k + 1) j i htl
        refine ⟨by omega, ?_, helig⟩
        have : j - k = (j - (k + 1)) + 1 := by omega
        rw [this]
        simpa using hget
    · rw [availableIdx, if_neg h] at hmem
      obtain ⟨hk, hget, helig⟩ := availableIdx_mem now as (k + 1) j i hmem
      refine ⟨by omega, ?_, helig⟩
      have : j - k = (j - (k + 1)) + 1 := by omega
      rw [this]
      simpa using hget

/-- The available list is empty exactly when no intervention of the category
passes the cooldown test. -/
theorem availableIdx_eq_nil_iff (now : ℚ) :
    ∀ (is : List Intervention) (k : Nat),
      availableIdx now is k = [] ↔ ∀ i ∈ is, eligible now i = false
  | [], k => by simp [availableIdx]
  | a :: as, k => by
    by_cases h : eligible now a
    · simp [availableIdx, h]
    · simp only [availableIdx, if_neg h, availableIdx_eq_nil_iff now as (k + 1)]
      constructor
      · intro hall i hi
        rcases List.mem_cons.mp hi with rfl | hi2
        · exact Bool.eq_false_iff.mpr h
        · exact hall i hi2
      · intro hall i hi
        exact hall i (List.mem_cons_of_mem a hi)

/-- A selected index denotes an intervention of the list that passed the
cooldown test. -/
theorem select_idx_some (items : List Intervention) (now : ℚ) (j : Nat)
    (h : select_idx items now = some j) :
    ∃ i, items.get? j = some i ∧ eligible now i = true := by
  rw [select_idx] at h
  cases ha : availableIdx now items 0 with
  | nil => rw [ha] at h; exact absurd h (by simp)
  | cons x xs =>
    rw [ha] at h
    have hj : (xs.foldl (fun best p =>
        if p.2.priority > best.2.priority then p else best) x).1 = j :=
      Option.some_injective _ h
    have hm : xs.foldl (fun best p =>
        if p.2.priority > best.2.priority then p else best) x ∈
        availableIdx now items 0 := by
      rw [ha]
      exact foldl_pick_mem (fun p : Nat × Intervention => p.2.priority) xs x
    set r := xs.foldl (fun best p =>
      if p.2.priority > best.2.priority then p else best) x with hr
    have hpair : (r.1, r.2) ∈ availableIdx now items 0 := by
      rw [Prod.mk.eta]; exact hm
    obtain ⟨-, hget, helig⟩ := availableIdx_mem now items 0 r.1 r.2 hpair
    refine ⟨r.2, ?_, helig⟩
    rw [← hj]
    simpa using hget

/-- Selection returns no index exactly when every intervention of the
category fails the cooldown test. -/
theorem select_idx_eq_none_iff (items : List Intervention) (now : ℚ) :
    select_idx items now = none ↔ ∀ i ∈ items, eligible now i = false := by
  cases ha : availableIdx now items 0 with
  | nil =>
    rw [select_idx, ha]
    simp only [true_iff]
    exact (availableIdx_eq_nil_iff now items 0).mp ha
  | cons x xs =>
    rw [select_idx, ha]
    have hpair : (x.1, x.2) ∈ availableIdx now items 0 := by
      rw [Prod.mk.eta, ha]; exact List.mem_cons_self x xs
    obtain ⟨-, hget, helig⟩ := availableIdx_mem now items 0 x.1 x.2 hpair
    constructor
    · intro habs
      exact absurd habs (by simp)
    · intro hall
      have h2 := hall x.2 (List.get?_mem (by simpa using hget))
      rw [helig] at h2
      exact absurd h2 (by simp)

/-- Head of the stable descending insertion. -/
theorem insertByConfDesc_head (p : CollapsePattern × ℚ × String) :
    ∀ l, (insertByConfDesc p l).head? =
      some (match l with
            | [] => p
            | q :: _ => if p.2.1 ≥ q.2.1 then p else q)
  | [] => rfl
  | q :: qs => by
    rw [insertByConfDesc]
    by_cases h : p.2.1 ≥ q.2.1
    · simp [h]
    · simp [h]

/-- The head of the stable descending sort is the first-registered pattern
attaining the maximum confidence. -/
theorem sortByConfDesc_head : ∀ pats,
    (sortByConfDesc pats).head? =
      firstArgmaxKey (fun p : CollapsePattern × ℚ × String => p.2.1) pats
  | [] => rfl
  | p :: ps => by
    rw [sortByConfDesc, insertByConfDesc_head, firstArgmaxKey]
    have ih := sortByConfDesc_head ps
    cases hsp : sortByConfDesc ps with
    | nil =>
      rw [hsp] at ih
      rw [← ih]
      rfl
    | cons q qs =>
      rw [hsp] at ih
      rw [← ih]
      by_cases h : p.2.1 ≥ q.2.1
      · have h2 : ¬ q.2.1 > p.2.1 := not_lt.mpr h
        simp [h, h2]
      · have h2 : q.2.1 > p.2.1 := lt_of_not_ge h
        simp [h, h2]

/-- A successful selection exposes the sorted head and the category. -/
theorem select_intervention_some_elim (lb : LoopBreaker)
    (pats : List (CollapsePattern × ℚ × String)) (now : ℚ)
    (ty : InterventionType) (idx : Nat)
    (h : lb.select_intervention pats now = some (ty, idx)) :
    ∃ pr rest, sortByConfDesc pats = pr :: rest ∧
      pattern_to_intervention pr.1 = ty ∧
      select_idx (lb.interventions.get ty) now = some idx := by
  rw [LoopBreaker.select_intervention] at h
  cases hs : sortByConfDesc pats with
  | nil => rw [hs] at h; exact absurd h (by simp)
  | cons pr rest =>
    rw [hs] at h
    simp only [Option.map_eq_some'] at h
    obtain ⟨j, hj, hpr⟩ := h
    obtain ⟨hty, hidx⟩ := Prod.mk.injEq .. ▸ hpr
    subst hty; subst hidx
    exact ⟨pr, rest, rfl, rfl, hj⟩

/-- With the sorted head fixed, selection on any engine and instant reduces
to `select_idx` over the category's current list. -/
theorem select_intervention_eq_of_sort (lb : LoopBreaker)
    (pats : List (CollapsePattern × ℚ × String)) (t : ℚ)
    (pr : CollapsePattern × ℚ × String) (rest : List (CollapsePattern × ℚ × String))
    (hsort : sortByConfDesc pats = pr :: rest) :
    lb.select_intervention pats t =
      (select_idx (lb.interventions.get (pattern_to_intervention pr.1)) t).map
        (fun j => (pattern_to_intervention pr.1, j)) := by
  rw [LoopBreaker.select_intervention, hsort]

/-- `List.set` at the written index (the index is in range at every use
site). -/
theorem listSet_get?_self : ∀ (l : List Intervention) (i : Nat) (a : Intervention),
    i < l.length → (l.set i a).get? i = some a
  | [], i, a => by simp
  | x :: xs, 0, a => by simp
  | x :: xs, i + 1, a => by
    intro h
    simpa using listSet_get?_self xs i a (by simpa using h)

/-- `List.set` leaves every other index unchanged. -/
theorem listSet_get?_other (l : List Intervention) (i : Nat) (a : Intervention)
    (j : Nat) (h : j ≠ i) : (l.set i a).get? j = l.get? j :=
  List.get?_set_ne a l (Ne.symm h)

/-- `catalogModify` rewrites exactly the addressed category list. -/
theorem catalogModify_get_self (c : InterventionCatalog) (ty : InterventionType)
    (idx : Nat) (newI : Intervention) :
    (catalogModify c ty idx newI).get ty = (c.get ty).set idx newI := by
  cases ty <;> simp [catalogModify, InterventionCatalog.get]

/-- Both branches of `execute_intervention` return the intervention with its
cooldown timestamp stamped to `now`. -/
theorem execute_intervention_fst (sid : String) (i : Intervention) (now : ℚ)
    (st : CognitiveState) :
    (execute_intervention sid i now st).1 = { i with last_executed := some now } := by
  rw [execute_intervention]
  cases i.execute st <;> rfl

/-- The cooldown test on a just-stamped intervention compares the elapsed
time against the cooldown window. -/
theorem eligible_stamped (i : Intervention) (now t2 : ℚ) :
    eligible t2 { i with last_executed := some now } =
      decide (t2 - now > (i.cooldown_minutes : ℚ) * 60) := rfl

/-- Replacement pass of `dictSet` on a present key: the first matching pair
is found rewritten. -/
theorem find?_dictSet_map (k : String) (v : JVal) :
    ∀ d : PyDict, d.any (fun p => p.1 == k) = true →
      (d.map (fun p => if p.1 == k then (k, v) else p)).find?
        (fun p => p.1 == k) = some (k, v)
  | [], h => by simp at h
  | q :: qs, h => by
    by_cases hq : (q.1 == k) = true
    · rw [List.map_cons, if_pos hq]
      exact List.find?_cons_of_pos _ (by simp)
    · have h2 : qs.any (fun p => p.1 == k) = true := by
        rcases List.any_eq_true.mp h with ⟨p, hp, hpk⟩
        rcases List.mem_cons.mp hp with rfl | hp2
        · exact absurd hpk hq
        · exact List.any_eq_true.mpr ⟨p, hp2, hpk⟩
      rw [List.map_cons, if_neg hq, List.find?_cons_of_neg _ (by simpa using hq)]
      exact find?_dictSet_map k v qs h2

/-- Replacement pass of `dictSet` is invisible to lookups of other keys. -/
theorem find?_dictSet_map_ne (k k2 : String) (v : JVal) (hkk : k2 ≠ k) :
    ∀ d : PyDict,
      (d.map (fun p => if p.1 == k then (k, v) else p)).find?
        (fun p => p.1 == k2) = d.find? (fun p => p.1 == k2)
  | [] => rfl
  | q :: qs => by
    by_cases hq : (q.1 == k) = true
    · have hq1 : q.1 = k := by simpa using hq
      have hne : ((k, v).1 == k2) = false := by
        simp only [beq_eq_false_iff_ne]
        exact fun hh => hkk hh.symm
      have hne2 : (q.1 == k2) = false := by
        rw [hq1]
        simpa using hne
      rw [List.map_cons, if_pos hq,
        List.find?_cons_of_neg _ (by simp [hne]),
        List.find?_cons_of_neg _ (by simp [hne2])]
      exact find?_dictSet_map_ne k k2 v hkk qs
    · rw [List.map_cons, if_neg hq]
      by_cases hq2 : (q.1 == k2) = true
      · rw [List.find?_cons_of_pos
            (List.map (fun p => if (p.1 == k) = true then (k, v) else p) qs) hq2,
          List.find?_cons_of_pos qs hq2]
      · rw [List.find?_cons_of_neg _ (by simpa using hq2),
          List.find?_cons_of_neg _ (by simpa using hq2)]
        exact find?_dictSet_map_ne k k2 v hkk qs

/-- Looking up a key just written by `dictSet` yields the written value. -/
theorem dictGet_dictSet_self (d : PyDict) (k : String) (v : JVal) :
    dictGet (dictSet d k v) k = some v := by
  rw [dictSet]
  by_cases h : d.any (fun p => p.1 == k)
  · rw [if_pos h, dictGet, find?_dictSet_map k v d h]
    rfl
  · rw [if_neg h, dictGet, List.find?_append]
    have hnone : d.find? (fun p => p.1 == k) = none :=
      List.find?_eq_none.mpr (fun x hx => by
        intro hxk
        exact h (List.any_eq_true.mpr ⟨x, hx, hxk⟩))
    rw [hnone]
    simp [List.find?]

/-- Writing one key with `dictSet` leaves lookups of other keys unchanged. -/
theorem dictGet_dictSet_ne (d : PyDict) (k k2 : String) (v : JVal)
    (hkk : k2 ≠ k) : dictGet (dictSet d k v) k2 = dictGet d k2 := by
  rw [dictSet]
  by_cases h : d.any (fun p => p.1 == k)
  · rw [if_pos h, dictGet, find?_dictSet_map_ne k k2 v hkk d, dictGet]
  · rw [if_neg h, dictGet, List.find?_append, dictGet]
    cases hd : d.find? (fun p => p.1 == k2) with
    | some p => rfl
    | none =>
      have : ((k, v).1 == k2) = false := by
        simp only [beq_eq_false_iff_ne]
        exact fun hh => hkk hh.symm
      simp [List.find?, this]

/-- `select_idx` agrees with taking the first index attaining the maximal
priority among the cooldown-eligible entries. -/
theorem select_idx_eq_firstArgmax (items : List Intervention) (now : ℚ) :
    select_idx items now =
      (firstArgmaxKey (fun p : Nat × Intervention => p.2.priority)
        (availableIdx now items 0)).map (fun p => p.1) := by
  rw [select_idx]
  cases ha : availableIdx now items 0 with
  | nil => rfl
  | cons x xs =>
    have hf := foldl_pick_eq (fun p : Nat × Intervention => p.2.priority) xs x
    show some ((xs.foldl (fun best p =>
        if p.2.priority > best.2.priority then p else best) x)).1 =
      (firstArgmaxKey (fun p : Nat × Intervention => p.2.priority) (x :: xs)).map
        (fun p => p.1)
    cases h2 : firstArgmaxKey (fun p : Nat × Intervention => p.2.priority) xs with
    | none =>
      rw [h2] at hf
      rw [hf, firstArgmaxKey, h2]
      rfl
    | some m =>
      rw [h2] at hf
      rw [hf, firstArgmaxKey, h2]
      rfl

/-- The spec-side category table coincides with the source's dictionary. -/
theorem pattern_to_intervention_table (c : CollapsePattern) :
    (match c with
      | .symbolic_flooding => InterventionType.containment
      | .identity_fragmentation => .identity_anchor
      | .recursive_spiral => .grounding
      | .meaning_collapse => .containment
      | .temporal_disconnection => .grounding
      | .containment_breach => .containment) = pattern_to_intervention c := by
  cases c <;> rfl

/-- C4: for every non-empty pattern list, selection sorts descending by
confidence with the stable first-registered tie-break, maps the
highest-confidence pattern through the fixed category table, and returns the
cooldown-eligible intervention of that category with the highest priority,
ties broken by catalog registration order; the empty list yields none.  The
engine's `select_intervention` coincides with this specification model on
every engine state, pattern list and instant. -/
theorem select_intervention_matches_spec :
    (∀ (lb : LoopBreaker) (pats : List (CollapsePattern × ℚ × String)) (now : ℚ),
      lb.select_intervention pats now = selectSpec lb pats now) ∧
    (∀ (lb : LoopBreaker) (now : ℚ), lb.select_intervention [] now = none) := by
  constructor
  · intro lb pats now
    cases hs : sortByConfDesc pats with
    | nil =>
      have hfa : firstArgmaxKey
          (fun p : CollapsePattern × ℚ × String => p.2.1) pats = none := by
        rw [← sortByConfDesc_head pats, hs]
        rfl
      rw [LoopBreaker.select_intervention, hs, selectSpec, hfa]
    | cons pr rest =>
      have hfa : firstArgmaxKey
          (fun p : CollapsePattern × ℚ × String => p.2.1) pats = some pr := by
        rw [← sortByConfDesc_head pats, hs]
        rfl
      rw [LoopBreaker.select_intervention, hs, selectSpec, hfa]
      show (select_idx (lb.interventions.get (pattern_to_intervention pr.1)) now).map
          (fun j => (pattern_to_intervention pr.1, j)) =
        match firstArgmaxKey (fun p : Nat × Intervention => p.2.priority)
            (availableIdx now (lb.interventions.get
              (match pr.1 with
                | .symbolic_flooding => InterventionType.containment
                | .identity_fragmentation => .identity_anchor
                | .recursive_spiral => .grounding
                | .meaning_collapse => .containment
                | .temporal_disconnection => .grounding
                | .containment_breach => .containment)) 0) with
        | none => none
        | some chosen =>
          some ((match pr.1 with
                | .symbolic_flooding => InterventionType.containment
                | .identity_fragmentation => .identity_anchor
                | .recursive_spiral => .grounding
                | .meaning_collapse => .containment
                | .temporal_disconnection => .grounding
                | .containment_breach => .containment), chosen.1)
      rw [pattern_to_intervention_table, select_idx_eq_firstArgmax]
      cases firstArgmaxKey (fun p : Nat × Intervention => p.2.priority)
          (availableIdx now (lb.interventions.get (pattern_to_intervention pr.1)) 0) with
      | none => rfl
      | some chosen => rfl
  · intro lb now
    rfl

/-- C7: `get_session_summary` is pure: it returns the engine unchanged, its
output does not depend on the ambient clock, and calling it twice in a row
yields the identical summary record. -/
theorem get_session_summary_idempotent (lb : LoopBreaker) (t1 t2 : ℚ) :
    (lb.get_session_summary t1).1 = lb ∧
    (lb.get_session_summary t1).2 = (lb.get_session_summary t2).2 ∧
    ((lb.get_session_summary t1).1.get_session_summary t2).2 =
      (lb.get_session_summary t1).2 := by
  cases h : lb.state_history with
  | nil =>
    refine ⟨?_, ?_, ?_⟩ <;> simp [LoopBreaker.get_session_summary, h]
  | cons a l =>
    refine ⟨?_, ?_, ?_⟩ <;> simp [LoopBreaker.get_session_summary, h]

/-- C8: the summary's `interventions_executed` field counts the catalog
entries whose cooldown timestamp is non-null, i.e. distinct interventions
ever invoked; in the concrete double-invocation run the same
`emergency_containment` entry is invoked at 0 s and again at 14401 s (past
its 240-minute cooldown) yet the count stays 1, not 2. -/
theorem interventions_executed_counts_distinct :
    (∀ (lb : LoopBreaker) (t : ℚ),
      ((lb.get_session_summary t).2).map (fun s => s.interventions_executed) =
        match lb.state_history with
        | [] => none
        | _ :: _ => some (lb.interventions.allEntries.countP
            (fun i => i.last_executed.isSome))) ∧
    (repeatRun1.1.interventions.containment.map (fun i => i.last_executed) =
      [none, some 0]) ∧
    (repeatRun2.1.interventions.containment.map (fun i => i.last_executed) =
      [none, some 14401]) ∧
    ((repeatRun1.1.get_session_summary 0).2).map
      (fun s => s.interventions_executed) = some 1 ∧
    ((repeatRun2.1.get_session_summary 14401).2).map
      (fun s => s.interventions_executed) = some 1 := by
  refine ⟨?_, by decide, by decide, by decide, by decide⟩
  intro lb t
  cases h : lb.state_history with
  | nil => simp [LoopBreaker.get_session_summary, h]
  | cons a l => simp [LoopBreaker.get_session_summary, h]

/-- C9: state intake always succeeds and appends exactly one snapshot; the
new snapshot is stamped with the intake instant; its session duration is zero
on an empty history and otherwise the intake instant minus the first
snapshot's timestamp; durations are non-decreasing across consecutive intakes
with non-decreasing clock readings. -/
theorem update_state_appends_one (lb : LoopBreaker) (now : ℚ) (u : StateUpdate) :
    ((lb.update_state now u).1.state_history =
      lb.state_history ++ [(lb.update_state now u).2]) ∧
    ((lb.update_state now u).2.timestamp = now) ∧
    ((lb.update_state now u).2.session_duration =
      match lb.state_history with
      | [] => 0
      | first :: _ => now - first.timestamp) ∧
    (∀ (u2 : StateUpdate) (t2 : ℚ), now ≤ t2 →
      ((lb.update_state now u).1.update_state t2 u2).2.session_duration ≥
        (lb.update_state now u).2.session_duration) := by
  refine ⟨rfl, rfl, rfl, ?_⟩
  intro u2 t2 h
  cases hh : lb.state_history with
  | nil =>
    simp [LoopBreaker.update_state, hh]
    linarith
  | cons f rest =>
    simp [LoopBreaker.update_state, hh]
    linarith

/-- Witness for the duration-monotonicity clause of
`update_state_appends_one` at a concrete engine and instants 0 ≤ 1. -/
theorem update_state_appends_one_witness :
    (((LoopBreaker.init "w9").update_state 0 {}).1.update_state 1 {}).2.session_duration ≥
      ((LoopBreaker.init "w9").update_state 0 {}).2.session_duration :=
  (update_state_appends_one (LoopBreaker.init "w9") 0 {}).2.2.2 {} 1 (by norm_num)

/-- C5: invocation stamps the cooldown timestamp unconditionally before the
action runs; a successful action's record is augmented with the invocation
identifier, invocation timestamp and session identifier; a failing action
yields the degraded record with error, category and fallback instruction, and
the failure is returned as data (the function is total), never propagated. -/
theorem execute_intervention_report (sid : String) (i : Intervention) (now : ℚ)
    (st : CognitiveState) :
    ((execute_intervention sid i now st).1 =
      { i with last_executed := some now }) ∧
    (match i.execute st with
     | .ok _ =>
       dictGet (execute_intervention sid i now st).2 "session_id" =
         some (JVal.s sid) ∧
       dictGet (execute_intervention sid i now st).2 "executed_at" =
         some (JVal.n now) ∧
       (dictGet (execute_intervention sid i now st).2 "intervention_id").isSome = true
     | .error e =>
       (execute_intervention sid i now st).2 =
         [ ("error", JVal.s ("Intervention execution failed: " ++ e)),
           ("intervention_type", JVal.s i.intervention_type.value),
           ("fallback", JVal.s "Initiate manual grounding protocol") ]) := by
  refine ⟨execute_intervention_fst sid i now st, ?_⟩
  cases h : i.execute st with
  | ok r =>
    have h2 : (execute_intervention sid i now st).2 =
        dictSet (dictSet (dictSet r "intervention_id" (JVal.s i.description))
          "executed_at" (JVal.n now)) "session_id" (JVal.s sid) := by
      rw [execute_intervention, h]
    refine ⟨?_, ?_, ?_⟩
    · rw [h2, dictGet_dictSet_self]
    · rw [h2, dictGet_dictSet_ne _ _ _ _ (by decide), dictGet_dictSet_self]
    · rw [h2, dictGet_dictSet_ne _ _ _ _ (by decide),
        dictGet_dictSet_ne _ _ _ _ (by decide), dictGet_dictSet_self]
      rfl
  | error e =>
    rw [execute_intervention, h]

/-- `catalogModify` on a non-redirect category leaves the redirect list
untouched. -/
theorem catalogModify_redirect (c : InterventionCatalog) (ty : InterventionType)
    (idx : Nat) (newI : Intervention) (h : ty ≠ InterventionType.redirect) :
    (catalogModify c ty idx newI).redirect = c.redirect := by
  cases ty with
  | grounding => rfl
  | identity_anchor => rfl
  | containment => rfl
  | redirect => exact absurd rfl h
  | emergency_stop => rfl

/-- C10: selection only ever lands in the containment, identity-anchor or
grounding categories, and a processing cycle never rewrites the redirect
list — the catalog's redirect intervention is unreachable through the
decision pipeline. -/
theorem redirect_unreachable :
    (∀ (lb : LoopBreaker) (pats : List (CollapsePattern × ℚ × String)) (now : ℚ),
      ((lb.select_intervention pats now).map (fun p =>
        p.1 == InterventionType.containment ||
        p.1 == InterventionType.identity_anchor ||
        p.1 == InterventionType.grounding)).getD true = true) ∧
    (∀ (lb : LoopBreaker) (now : ℚ) (u : StateUpdate),
      (lb.process_cycle now u).1.interventions.redirect =
        lb.interventions.redirect) := by
  constructor
  · intro lb pats now
    cases hs : sortByConfDesc pats with
    | nil => rw [LoopBreaker.select_intervention, hs]; rfl
    | cons pr rest =>
      rw [LoopBreaker.select_intervention, hs]
      show (((select_idx (lb.interventions.get (pattern_to_intervention pr.1)) now).map
          (fun j => (pattern_to_intervention pr.1, j))).map (fun p =>
            p.1 == InterventionType.containment ||
            p.1 == InterventionType.identity_anchor ||
            p.1 == InterventionType.grounding)).getD true = true
      cases hj : select_idx (lb.interventions.get (pattern_to_intervention pr.1)) now with
      | none => rfl
      | some j => cases pr.1 <;> rfl
  · intro lb now u
    rw [LoopBreaker.process_cycle]
    split
    · rfl
    · split
      · rfl
      · split
        · rfl
        · rename_i a1 ty idx hsel a2 i hget
          obtain ⟨pr, rest, hsort, hty, hidx⟩ :=
            select_intervention_some_elim _ _ _ _ _ hsel
          have hne : ty ≠ InterventionType.redirect := by
            rw [← hty]
            cases pr.1 <;> decide
          show (catalogModify (lb.update_state now u).1.interventions ty idx
            (execute_intervention (lb.update_state now u).1.session_id i now
              (lb.update_state now u).2).1).redirect = lb.interventions.redirect
          rw [catalogModify_redirect _ _ _ _ hne]
          rfl

/-- C6: the session-wide containment flag starts false; a processing cycle
leaves it at `old || (invoked intervention is containment-category)` — so it
is set exactly when a containment intervention is invoked and can never be
cleared by a cycle — and neither state intake nor summary generation touches
it. -/
theorem containment_flag_one_way :
    (∀ sid, (LoopBreaker.init sid).active_containment = false) ∧
    (∀ (lb : LoopBreaker) (now : ℚ) (u : StateUpdate),
      (lb.process_cycle now u).1.active_containment =
        (lb.active_containment ||
          (lb.cycle_executed now u).elim false
            (fun i => i.intervention_type == InterventionType.containment))) ∧
    (∀ (lb : LoopBreaker) (now : ℚ) (u : StateUpdate),
      (lb.update_state now u).1.active_containment = lb.active_containment) ∧
    (∀ (lb : LoopBreaker) (t : ℚ),
      (lb.get_session_summary t).1.active_containment = lb.active_containment) := by
  refine ⟨fun sid => rfl, ?_, fun lb now u => rfl, ?_⟩
  · intro lb now u
    simp only [LoopBreaker.process_cycle, LoopBreaker.cycle_executed]
    split
    · simp [LoopBreaker.update_state]
    · split
      · simp [LoopBreaker.update_state]
      · split
        · rename_i a1 ty idx hsel a2 hgetn
          have hget2 : (lb.interventions.get ty)[idx]? = none := by
            rw [← List.get?_eq_getElem?]
            exact hgetn
          simp [hget2, LoopBreaker.update_state]
        · rename_i a1 ty idx hsel a2 i hget
          have hget2 : (lb.interventions.get ty)[idx]? = some i := by
            rw [← List.get?_eq_getElem?]
            exact hget
          cases hb : (i.intervention_type == InterventionType.containment) <;>
            simp [hb, hget2, LoopBreaker.update_state]
  · intro lb t
    cases h : lb.state_history with
    | nil => simp [LoopBreaker.get_session_summary, h]
    | cons a l => simp [LoopBreaker.get_session_summary, h]

/-- C1 counterexample: in the three-cycle scenario (metrics exactly as
claimed, cycles one minute apart) the claim's description of cycles 2 and 3
is false at this concrete run: cycle 2 detects no pattern at all, so the
claimed conjunction cannot hold. -/
theorem scenarioA_claim_cex :
    ¬ (scenarioA_run1.2.patterns_detected = [] ∧
       scenarioA_run2.2.patterns_detected ≠ [] ∧
       ¬ "containment_breach" ∈ scenarioA_run2.2.patterns_detected.map
           (fun e => e.pattern) ∧
       "containment_breach" ∈ scenarioA_run3.2.patterns_detected.map
           (fun e => e.pattern) ∧
       (scenarioA_run2.1.cycle_executed 120 scenarioA_u3).elim false
           (fun i => i.intervention_type == InterventionType.containment) = true ∧
       scenarioA_run3.1.active_containment = true) := by
  decide

/-- C1 amended: the three-cycle scenario yields zero detected patterns on
cycles 1 and 2; cycle 3 detects symbolic-flooding and identity-fragmentation
(not containment-breach), invokes a containment-category intervention, and
leaves the session containment flag true. -/
theorem scenarioA_amended :
    scenarioA_run1.2.patterns_detected = [] ∧
    scenarioA_run2.2.patterns_detected = [] ∧
    scenarioA_run3.2.patterns_detected.map (fun e => e.pattern) =
      ["symbolic_flooding", "identity_fragmentation"] ∧
    (scenarioA_run2.1.cycle_executed 120 scenarioA_u3).elim false
      (fun i => i.intervention_type == InterventionType.containment) = true ∧
    scenarioA_run3.2.intervention.isSome = true ∧
    scenarioA_run3.1.active_containment = true := by
  decide

/-- C2 counterexample: the detector fires on a history holding only two
prior snapshots (coherence 0.9 → 0.5 plus the current 0.3), so firing does
not require three prior snapshots as claimed. -/
theorem identity_fragmentation_cex :
    ¬ (detect_identity_fragmentation
         ([coherenceState 0.9, coherenceState 0.5] ++ [coherenceState 0.3])
         (coherenceState 0.3) = true →
       3 ≤ ([coherenceState 0.9, coherenceState 0.5] : List CognitiveState).length) := by
  decide

/-- C2 amended: with the current snapshot appended to the history (as in
`process_cycle`), the detector fires exactly when there are at least 2 prior
snapshots (3 including the current), the current coherence is below 0.4 and
the coherence values of the last 3 history entries (current included) are
strictly decreasing; in particular the non-monotonic run
0.9 → 0.5 → 0.7 → 0.3 does not fire even though its final value is below
0.4. -/
theorem identity_fragmentation_amended :
    (∀ (priors : List CognitiveState) (cur : CognitiveState),
      detect_identity_fragmentation (priors ++ [cur]) cur = true ↔
        (2 ≤ priors.length ∧ cur.coherence_score < 0.4 ∧
         List.Chain' (fun a b => a > b)
           (((priors ++ [cur]).drop (priors.length - 2)).map
             (fun s => s.coherence_score)))) ∧
    detect_identity_fragmentation
      [coherenceState 0.9, coherenceState 0.5, coherenceState 0.7,
        coherenceState 0.3]
      (coherenceState 0.3) = false := by
  constructor
  · intro priors cur
    rw [detect_identity_fragmentation]
    have hlen : (priors ++ [cur]).length = priors.length + 1 := by simp
    rw [hlen]
    by_cases h : priors.length + 1 < 3
    · rw [if_pos h]
      simp only [Bool.false_eq_true, false_iff]
      rintro ⟨h2, -, -⟩
      omega
    · rw [if_neg h]
      have hd : priors.length + 1 - 3 = priors.length - 2 := by omega
      rw [hd, Bool.and_eq_true, decide_eq_true_eq, pairwiseGt_iff_chain]
      constructor
      · rintro ⟨hc, hchain⟩
        exact ⟨by omega, hc, hchain⟩
      · rintro ⟨-, hc, hchain⟩
        exact ⟨hc, hchain⟩
  · decide

/-- C3: an intervention is eligible iff never invoked or strictly past its
cooldown window; immediately after an invocation (and for as long as the
cooldown has not strictly elapsed) re-selection with the same firing pattern
never returns the invoked intervention again — it returns another eligible
intervention of the same category when one exists, and returns none when the
invoked intervention was the only one of its category. -/
theorem cooldown_enforcement (lb : LoopBreaker)
    (pats : List (CollapsePattern × ℚ × String)) (now : ℚ)
    (ty : InterventionType) (idx : Nat) (i : Intervention) (st : CognitiveState)
    (hsel : lb.select_intervention pats now = some (ty, idx))
    (hget : (lb.interventions.get ty).get? idx = some i)
    (hcd : 0 ≤ i.cooldown_minutes) :
    (∀ (j : Intervention) (t : ℚ), eligible t j = true ↔
      (j.last_executed = none ∨
        ∃ t0, j.last_executed = some t0 ∧
          t - t0 > (j.cooldown_minutes : ℚ) * 60)) ∧
    (∀ t2 : ℚ, t2 - now ≤ (i.cooldown_minutes : ℚ) * 60 →
      (afterInvocation lb ty idx i now st).select_intervention pats t2 ≠
        some (ty, idx)) ∧
    (∀ (j : Nat) (i2 : Intervention), j ≠ idx →
      (lb.interventions.get ty).get? j = some i2 → eligible now i2 = true →
      ∃ k, k ≠ idx ∧
        (afterInvocation lb ty idx i now st).select_intervention pats now =
          some (ty, k)) ∧
    ((lb.interventions.get ty).length = 1 →
      ∀ t2 : ℚ, t2 - now ≤ (i.cooldown_minutes : ℚ) * 60 →
        (afterInvocation lb ty idx i now st).select_intervention pats t2 = none) := by
  obtain ⟨pr, rest, hsort, hty, hidx⟩ :=
    select_intervention_some_elim lb pats now ty idx hsel
  have hin : idx < (lb.interventions.get ty).length := (List.get?_eq_some.mp hget).1
  have hL : (afterInvocation lb ty idx i now st).interventions.get ty =
      (lb.interventions.get ty).set idx { i with last_executed := some now } := by
    show (catalogModify lb.interventions ty idx
      (execute_intervention lb.session_id i now st).1).get ty = _
    rw [catalogModify_get_self, execute_intervention_fst]
  have hstamp : ((afterInvocation lb ty idx i now st).interventions.get ty).get? idx
      = some { i with last_executed := some now } := by
    rw [hL]
    exact listSet_get?_self _ _ _ hin
  have hsel2 : ∀ t2 : ℚ,
      (afterInvocation lb ty idx i now st).select_intervention pats t2 =
        (select_idx ((afterInvocation lb ty idx i now st).interventions.get ty) t2).map
          (fun j => (ty, j)) := by
    intro t2
    rw [select_intervention_eq_of_sort _ pats t2 pr rest hsort, hty]
  have hcdQ : (0:ℚ) ≤ (i.cooldown_minutes : ℚ) * 60 := by
    have hc0 : (0:ℚ) ≤ (i.cooldown_minutes : ℚ) := by exact_mod_cast hcd
    linarith
  refine ⟨?_, ?_, ?_, ?_⟩
  · intro j t
    cases hj : j.last_executed with
    | none => simp [eligible, hj]
    | some t0 => simp [eligible, hj]
  · intro t2 ht2 habs
    rw [hsel2 t2] at habs
    obtain ⟨k, hk, hpair⟩ := Option.map_eq_some'.mp habs
    obtain ⟨-, hkidx⟩ := Prod.mk.injEq .. ▸ hpair
    subst hkidx
    obtain ⟨i2, hget2, helig2⟩ := select_idx_some _ t2 k hk
    rw [hstamp] at hget2
    have hi2 : { i with last_executed := some now } = i2 :=
      Option.some_injective _ hget2
    rw [← hi2, eligible_stamped] at helig2
    have := of_decide_eq_true helig2
    linarith
  · intro j i2 hji hgetj heligj
    have hgetj2 : ((afterInvocation lb ty idx i now st).interventions.get ty).get? j
        = some i2 := by
      rw [hL, listSet_get?_other _ _ _ _ hji]
      exact hgetj
    cases hk : select_idx ((afterInvocation lb ty idx i now st).interventions.get ty)
        now with
    | none =>
      exfalso
      have hall := (select_idx_eq_none_iff _ now).mp hk
      have h2 := hall i2 (List.get?_mem hgetj2)
      rw [heligj] at h2
      exact absurd h2 (by simp)
    | some k =>
      refine ⟨k, ?_, ?_⟩
      · intro hkeq
        subst hkeq
        obtain ⟨i3, hget3, helig3⟩ := select_idx_some _ now k hk
        rw [hstamp] at hget3
        have hi3 : { i with last_executed := some now } = i3 :=
          Option.some_injective _ hget3
        rw [← hi3, eligible_stamped] at helig3
        have := of_decide_eq_true helig3
        linarith
      · rw [hsel2 now, hk]
        rfl
  · intro hlen t2 ht2
    rw [hsel2 t2]
    have hidx0 : idx = 0 := by
      rw [hlen] at hin
      omega
    have hnone : select_idx
        ((afterInvocation lb ty idx i now st).interventions.get ty) t2 = none := by
      rw [select_idx_eq_none_iff]
      intro i2 hi2
      rw [hL] at hi2
      cases hLl : lb.interventions.get ty with
      | nil =>
        rw [hLl] at hlen
        simp at hlen
      | cons a l =>
        cases l with
        | nil =>
          rw [hLl, hidx0] at hi2
          simp only [List.set] at hi2
          have hi2eq : i2 = { i with last_executed := some now } := by
            simpa using hi2
          rw [hi2eq, eligible_stamped]
          exact decide_eq_false (not_lt.mpr (by linarith))
        | cons b l2 =>
          rw [hLl] at hlen
          simp at hlen
    rw [hnone]
    rfl

/-- Witness for `cooldown_enforcement`: on a fresh engine, after the
containment-breach pattern selects and invokes `emergency_containment`
(containment, index 1) at time 0, an immediate re-selection with the same
pattern no longer returns that intervention. -/
theorem cooldown_enforcement_witness :
    (afterInvocation (LoopBreaker.init "cooldown-witness")
        InterventionType.containment 1 emergencyContainmentEntry 0
        (coherenceState 1)).select_intervention breachPatterns 0 ≠
      some (InterventionType.containment, 1) :=
  (cooldown_enforcement (LoopBreaker.init "cooldown-witness") breachPatterns 0
      InterventionType.containment 1 emergencyContainmentEntry (coherenceState 1)
      (by decide) rfl (by decide)).2.1 0 (by decide)
